import Mathlib

/-!
Shallow embedding of the SAE Bakery SOP API backend (src/main.py, src/schemas.py).

The document store is modelled as lists of records per collection; MongoDB's
`find_one` is the first list element matching the filter, `insert_one` /
`create_document` appends, and `update_one` with `upsert=True` updates the first
matching document or appends a fresh one.  Python `float` quantities and prices
are idealized as exact numbers: every definition and theorem is parameterized
over an arbitrary linearly ordered commutative ring `R` (so the results hold in
particular over `ℚ` or `ℝ`; the concrete witnesses instantiate `R := ℤ`, where
the computations are kernel-evaluable).  Each HTTP endpoint becomes a function
from the database state and the (schema-validated) request body to
`Except ApiError DB`: raising `HTTPException` before any write is an `.error`
that leaves the state untouched.
-/

set_option linter.unusedSectionVars false

deriving instance DecidableEq for Except

namespace Bakery

/-- Master item record (schemas.py, class Barang). -/
structure Barang (R : Type) where
  kode_barang : String
  nama_barang : String
  satuan : String
  harga_beli_default : R
  kategori : String
deriving DecidableEq, Repr

/-- Master supplier record (schemas.py, class Supplier). -/
structure Supplier where
  kode_supplier : String
  nama_supplier : String
  alamat : Option String
  nomor_hp : Option String
deriving DecidableEq, Repr

/-- Master customer record (schemas.py, class Customer). -/
structure Customer where
  kode_customer : String
  nama_customer : String
  alamat : Option String
  nomor_hp : Option String
deriving DecidableEq, Repr

/-- Purchase line item (schemas.py, class PembelianItem). -/
structure PembelianItem (R : Type) where
  kode_barang : String
  nama_barang : String
  satuan : String
  qty : R
  harga_beli : R
deriving DecidableEq, Repr

/-- Purchase transaction (schemas.py, class Pembelian). -/
structure Pembelian (R : Type) where
  nomor_faktur : String
  tanggal : String
  kode_supplier : String
  supplier_name : Option String
  keterangan : Option String
  items : List (PembelianItem R)
  grand_total : R
deriving DecidableEq, Repr

/-- Stock-in transaction (schemas.py, class BarangMasuk). -/
structure BarangMasuk (R : Type) where
  tanggal : String
  kode_barang : String
  nama_barang : String
  satuan : String
  qty : R
  catatan : Option String
deriving DecidableEq, Repr

/-- Stock-out transaction (schemas.py, class BarangKeluar). -/
structure BarangKeluar (R : Type) where
  tanggal : String
  kode_barang : String
  nama_barang : String
  satuan : String
  qty : R
  catatan : Option String
deriving DecidableEq, Repr

/-- Sale line item (schemas.py, class PenjualanItem). -/
structure PenjualanItem (R : Type) where
  kode_barang : String
  nama_barang : String
  satuan : String
  qty : R
  harga_jual : R
deriving DecidableEq, Repr

/-- Sale transaction (schemas.py, class Penjualan). -/
structure Penjualan (R : Type) where
  nomor_penjualan : String
  tanggal : String
  kode_customer : String
  customer_name : Option String
  keterangan : Option String
  items : List (PenjualanItem R)
  grand_total : R
deriving DecidableEq, Repr

/-- A document of the `stock` collection: created and mutated only by the
transaction endpoints through `update_one({"kode_barang": k}, {"$inc": {"stok": d},
"$setOnInsert": {...}}, upsert=True)`. -/
structure StockEntry (R : Type) where
  kode_barang : String
  nama_barang : String
  satuan : String
  stok : R
deriving DecidableEq, Repr

/-- The collections of the document store touched by the endpoints under study.
Collection names follow main.py, including the misspelled `barngkeluar`. -/
structure DB (R : Type) where
  barang : List (Barang R)
  supplier : List Supplier
  customer : List Customer
  pembelian : List (Pembelian R)
  barangmasuk : List (BarangMasuk R)
  barngkeluar : List (BarangKeluar R)
  penjualan : List (Penjualan R)
  stock : List (StockEntry R)
deriving DecidableEq, Repr

/-- The `HTTPException` outcomes raised by the modelled endpoints, keyed by the
`detail` message in main.py. -/
inductive ApiError where
  /-- 403 "Hanya admin yang bisa membuat master data" -/
  | forbidden
  /-- 400 "Kode barang/supplier/customer sudah ada" -/
  | conflict
  /-- 400 "Supplier tidak ditemukan" -/
  | supplierNotFound
  /-- 400 "Customer tidak ditemukan" -/
  | customerNotFound
  /-- 400 "Barang tidak ditemukan" (barang-masuk / barang-keluar) -/
  | itemNotFound
  /-- 400 "Barang {kode} tidak ditemukan" (pembelian / penjualan line) -/
  | lineItemNotFound (kode : String)
  /-- 400 "Stok tidak mencukupi" (barang-keluar) -/
  | insufficientStock
  /-- 400 "Stok {kode} tidak mencukupi" (penjualan line) -/
  | lineInsufficientStock (kode : String)
deriving DecidableEq, Repr

/-- Whether an error is one of the two insufficient-stock rejections. -/
def ApiError.isInsufficientStock : ApiError → Bool
  | .insufficientStock => true
  | .lineInsufficientStock _ => true
  | _ => false

variable {R : Type} [LinearOrderedCommRing R]

/-- `collection("stock").update_one({"kode_barang": kode}, {"$inc": {"stok": delta},
"$setOnInsert": {"satuan": satuan, "nama_barang": nama}}, upsert=True)`:
increment `stok` of the first matching document, or insert a new document with
`stok = delta` and the caller-provided name/unit snapshots. -/
def adjust (stock : List (StockEntry R)) (kode nama satuan : String) (delta : R) :
    List (StockEntry R) :=
  match stock with
  | [] => [⟨kode, nama, satuan, delta⟩]
  | e :: rest =>
    if e.kode_barang = kode then { e with stok := e.stok + delta } :: rest
    else e :: adjust rest kode nama satuan delta

/-- `collection("stock").find_one({"kode_barang": kode})`. -/
def findStock (stock : List (StockEntry R)) (kode : String) : Option (StockEntry R) :=
  stock.find? (fun e => e.kode_barang == kode)

/-- The ledger quantity the reports show for an item: the `stok` field of its
stock document, or 0 when no document exists (`d.get("stok", 0)`). -/
def stokOf (stock : List (StockEntry R)) (kode : String) : R :=
  match findStock stock kode with
  | some e => e.stok
  | none => 0

/-- `collection("barang").find_one({"kode_barang": k})` is not `None`. -/
def hasBarang (db : DB R) (k : String) : Bool :=
  db.barang.any (fun b => b.kode_barang == k)

/-- `collection("supplier").find_one({"kode_supplier": k})` is not `None`. -/
def hasSupplier (db : DB R) (k : String) : Bool :=
  db.supplier.any (fun s => s.kode_supplier == k)

/-- `collection("customer").find_one({"kode_customer": k})` is not `None`. -/
def hasCustomer (db : DB R) (k : String) : Bool :=
  db.customer.any (fun c => c.kode_customer == k)

/-- POST /api/barang (main.py, create_barang): admin-only, rejects duplicate
`kode_barang`, otherwise persists the record. -/
def create_barang (db : DB R) (role : String) (data : Barang R) : Except ApiError (DB R) :=
  if role ≠ "admin" then .error .forbidden
  else if db.barang.any (fun b => b.kode_barang == data.kode_barang) then .error .conflict
  else .ok { db with barang := db.barang ++ [data] }

/-- POST /api/supplier (main.py, create_supplier). -/
def create_supplier (db : DB R) (role : String) (data : Supplier) : Except ApiError (DB R) :=
  if role ≠ "admin" then .error .forbidden
  else if db.supplier.any (fun s => s.kode_supplier == data.kode_supplier) then .error .conflict
  else .ok { db with supplier := db.supplier ++ [data] }

/-- POST /api/customer (main.py, create_customer). -/
def create_customer (db : DB R) (role : String) (data : Customer) : Except ApiError (DB R) :=
  if role ≠ "admin" then .error .forbidden
  else if db.customer.any (fun c => c.kode_customer == data.kode_customer) then .error .conflict
  else .ok { db with customer := db.customer ++ [data] }

/-- The validation loop of create_pembelian: the first line whose `kode_barang`
has no master record, in request order. -/
def firstMissingPembelianItem (db : DB R) (items : List (PembelianItem R)) : Option String :=
  items.findSome? (fun it => if hasBarang db it.kode_barang then none else some it.kode_barang)

/-- POST /api/transaksi/pembelian (main.py, create_pembelian): validate supplier,
validate every line's item, persist the header, then increment stock per line. -/
def create_pembelian (db : DB R) (data : Pembelian R) : Except ApiError (DB R) :=
  if hasSupplier db data.kode_supplier then
    match firstMissingPembelianItem db data.items with
    | some kode => .error (.lineItemNotFound kode)
    | none =>
      .ok { db with
        pembelian := db.pembelian ++ [data]
        stock := data.items.foldl
          (fun s it => adjust s it.kode_barang it.nama_barang it.satuan it.qty) db.stock }
  else .error .supplierNotFound

/-- POST /api/transaksi/barang-masuk (main.py, create_barang_masuk). -/
def create_barang_masuk (db : DB R) (data : BarangMasuk R) : Except ApiError (DB R) :=
  if hasBarang db data.kode_barang then
    .ok { db with
      barangmasuk := db.barangmasuk ++ [data]
      stock := adjust db.stock data.kode_barang data.nama_barang data.satuan data.qty }
  else .error .itemNotFound

/-- POST /api/transaksi/barang-keluar (main.py, create_barang_keluar): validate
the item, reject when a stock document exists with `stok < qty`, persist, then
decrement stock.  When no stock document exists the sufficiency check is skipped. -/
def create_barang_keluar (db : DB R) (data : BarangKeluar R) : Except ApiError (DB R) :=
  if hasBarang db data.kode_barang then
    match findStock db.stock data.kode_barang with
    | some st =>
      if st.stok < data.qty then .error .insufficientStock
      else
        .ok { db with
          barngkeluar := db.barngkeluar ++ [data]
          stock := adjust db.stock data.kode_barang data.nama_barang data.satuan (-data.qty) }
    | none =>
      .ok { db with
        barngkeluar := db.barngkeluar ++ [data]
        stock := adjust db.stock data.kode_barang data.nama_barang data.satuan (-data.qty) }
  else .error .itemNotFound

/-- One iteration of the validation loop of create_penjualan: missing item, then
insufficient stock checked against the pre-transaction stock document if any. -/
def validatePenjualanLine (db : DB R) (it : PenjualanItem R) : Option ApiError :=
  if hasBarang db it.kode_barang then
    match findStock db.stock it.kode_barang with
    | some st => if st.stok < it.qty then some (.lineInsufficientStock it.kode_barang) else none
    | none => none
  else some (.lineItemNotFound it.kode_barang)

/-- POST /api/transaksi/penjualan (main.py, create_penjualan): validate customer,
validate every line (item exists, stock sufficient against the current ledger),
persist the header, then decrement stock per line. -/
def create_penjualan (db : DB R) (data : Penjualan R) : Except ApiError (DB R) :=
  if hasCustomer db data.kode_customer then
    match data.items.findSome? (validatePenjualanLine db) with
    | some e => .error e
    | none =>
      .ok { db with
        penjualan := db.penjualan ++ [data]
        stock := data.items.foldl
          (fun s it => adjust s it.kode_barang it.nama_barang it.satuan (-it.qty)) db.stock }
  else .error .customerNotFound

/-- `str(num).zfill(pad)` for a nonnegative number: left-pad with zeros to width
`pad`. -/
def zfill (s : String) (pad : Nat) : String :=
  if pad ≤ s.length then s else String.mk (List.replicate (pad - s.length) (Char.ofNat 48)) ++ s

/-- The trailing-digit extraction of next_code, `re.search(r"(\d+)$", v)`: the
maximal run of digits ending the string, parsed, or `none` when the string does
not end in a digit. -/
def trailingNumber (s : String) : Option Nat :=
  if (s.data.reverse.takeWhile Char.isDigit).isEmpty then none
  else some ((s.data.reverse.takeWhile Char.isDigit).reverse.foldl
    (fun n c => n * 10 + (c.toNat - 48)) 0)

/-- `find_one({f: {"$regex": "^" + pre}}, sort=[(f, -1)])`: the lexicographically
last stored value of the field, among those beginning with the prefix.  String
order is modelled on the character lists (MongoDB sorts strings bytewise; for
the ASCII codes this system generates that coincides with the codepoint-wise
lexicographic order on `List Char`). -/
def lexLast (values : List String) : Option String :=
  match values with
  | [] => none
  | v :: vs => some (vs.foldl (fun m u => if m.data < u.data then u else m) v)

/-- main.py, next_code: `values` stands for the field values stored in the
collection being scanned.  The `$regex "^" + pre` filter is prefix matching on
the character lists. -/
def next_code (pre : String) (pad : Nat) (values : List String) : String :=
  let num :=
    match lexLast (values.filter (fun v => pre.data.isPrefixOf v.data)) with
    | none => 1
    | some last =>
      match trailingNumber last with
      | some n => n + 1
      | none => 1
  pre ++ zfill (Nat.repr num) pad

/-! ### The transaction language for sequences of accepted operations -/

/-- One request to a transaction endpoint. -/
inductive Txn (R : Type) where
  | purchase (d : Pembelian R)
  | stockIn (d : BarangMasuk R)
  | stockOut (d : BarangKeluar R)
  | sale (d : Penjualan R)
deriving DecidableEq, Repr

/-- Dispatch a transaction request to its endpoint. -/
def applyTxn (db : DB R) : Txn R → Except ApiError (DB R)
  | .purchase d => create_pembelian db d
  | .stockIn d => create_barang_masuk db d
  | .stockOut d => create_barang_keluar db d
  | .sale d => create_penjualan db d

/-- Run a sequence of transaction requests, stopping at the first rejection:
succeeds exactly when each request in turn was individually accepted. -/
def applyTxns (db : DB R) : List (Txn R) → Except ApiError (DB R)
  | [] => .ok db
  | t :: ts =>
    match applyTxn db t with
    | .ok db2 => applyTxns db2 ts
    | .error e => .error e

/-- Net quantity a purchase contributes to item `k`: `+qty` per line touching it. -/
def pembelianDelta (p : Pembelian R) (k : String) : R :=
  (p.items.map (fun it => if it.kode_barang = k then it.qty else 0)).sum

/-- Total quantity a sale draws from item `k` over its lines. -/
def penjualanDelta (p : Penjualan R) (k : String) : R :=
  (p.items.map (fun it => if it.kode_barang = k then it.qty else 0)).sum

/-- The algebraic stock delta of a transaction for item `k`: plus `qty` per
Purchase/StockIn line touching `k`, minus `qty` per StockOut/Sale line. -/
def txnDelta (t : Txn R) (k : String) : R :=
  match t with
  | .purchase d => pembelianDelta d k
  | .stockIn d => if d.kode_barang = k then d.qty else 0
  | .stockOut d => if d.kode_barang = k then -d.qty else 0
  | .sale d => -penjualanDelta d k

/-! ### Lemmas about the stock collection -/

theorem findStock_nil (k : String) : findStock ([] : List (StockEntry R)) k = none := rfl

theorem findStock_cons (e : StockEntry R) (rest : List (StockEntry R)) (k : String) :
    findStock (e :: rest) k = if e.kode_barang = k then some e else findStock rest k := by
  by_cases h : e.kode_barang = k
  · simp [findStock, List.find?_cons_of_pos, h]
  · simp [findStock, List.find?_cons_of_neg, h]

theorem stokOf_nil (k : String) : stokOf ([] : List (StockEntry R)) k = 0 := rfl

theorem stokOf_cons (e : StockEntry R) (rest : List (StockEntry R)) (k : String) :
    stokOf (e :: rest) k = if e.kode_barang = k then e.stok else stokOf rest k := by
  by_cases h : e.kode_barang = k <;> simp [stokOf, findStock_cons, h]

theorem adjust_nil (kode nama satuan : String) (delta : R) :
    adjust [] kode nama satuan delta = [⟨kode, nama, satuan, delta⟩] := rfl

theorem adjust_cons (e : StockEntry R) (rest : List (StockEntry R)) (kode nama satuan : String)
    (delta : R) :
    adjust (e :: rest) kode nama satuan delta =
      if e.kode_barang = kode then { e with stok := e.stok + delta } :: rest
      else e :: adjust rest kode nama satuan delta := rfl

/-- Effect of one `$inc` upsert on the ledger quantity of every item: the
targeted item gains `delta`, every other item is untouched. -/
theorem stokOf_adjust (s : List (StockEntry R)) (kode nama satuan : String) (delta : R)
    (k : String) :
    stokOf (adjust s kode nama satuan delta) k =
      stokOf s k + if kode = k then delta else 0 := by
  induction s with
  | nil =>
    rw [adjust_nil, stokOf_cons, stokOf_nil]
    by_cases h : kode = k <;> simp [h]
  | cons e rest ih =>
    rw [adjust_cons]
    by_cases he : e.kode_barang = kode
    · rw [if_pos he, stokOf_cons, stokOf_cons]
      by_cases hk : e.kode_barang = k
      · have hkk : kode = k := he ▸ hk
        simp [hk, hkk]
      · have hkk : kode ≠ k := fun h => hk (he.symm ▸ h)
        simp [hk, hkk]
    · rw [if_neg he, stokOf_cons, stokOf_cons]
      by_cases hk : e.kode_barang = k
      · have hkk : kode ≠ k := fun h => he (h ▸ hk.symm ▸ rfl)
        simp [hk, hkk]
      · simp [hk, ih]

/-- If no stock document exists for `kode`, the upsert appends a fresh document
carrying the caller-provided snapshots and `stok = delta`. -/
theorem adjust_of_findStock_none (s : List (StockEntry R)) (kode nama satuan : String)
    (delta : R) (h : findStock s kode = none) :
    adjust s kode nama satuan delta = s ++ [⟨kode, nama, satuan, delta⟩] := by
  induction s with
  | nil => rfl
  | cons e rest ih =>
    rw [findStock_cons] at h
    by_cases he : e.kode_barang = kode
    · simp [he] at h
    · rw [if_neg he] at h
      rw [adjust_cons, if_neg he, ih h]
      simp

/-- If a stock document exists for `kode`, the upsert only increments its `stok`
field: the stored name and unit snapshots are untouched, whatever snapshots the
adjusting transaction carries. -/
theorem findStock_adjust_of_some (s : List (StockEntry R)) (kode nama satuan : String)
    (delta : R) (st : StockEntry R) (h : findStock s kode = some st) :
    findStock (adjust s kode nama satuan delta) kode =
      some { st with stok := st.stok + delta } := by
  induction s with
  | nil => simp [findStock_nil] at h
  | cons e rest ih =>
    rw [findStock_cons] at h
    by_cases he : e.kode_barang = kode
    · rw [if_pos he] at h
      cases h
      rw [adjust_cons, if_pos he, findStock_cons]
      simp [he]
    · rw [if_neg he] at h
      rw [adjust_cons, if_neg he, findStock_cons, if_neg he]
      exact ih h

/-- The per-line stock increments of an accepted purchase sum to
`pembelianDelta` on every item. -/
theorem stokOf_foldl_pembelian (items : List (PembelianItem R)) (s : List (StockEntry R))
    (k : String) :
    stokOf (items.foldl
        (fun s it => adjust s it.kode_barang it.nama_barang it.satuan it.qty) s) k =
      stokOf s k + (items.map (fun it => if it.kode_barang = k then it.qty else 0)).sum := by
  induction items generalizing s with
  | nil => simp
  | cons it rest ih =>
    rw [List.foldl_cons, ih, stokOf_adjust, List.map_cons, List.sum_cons]
    ring

/-- The per-line stock decrements of an accepted sale sum to `penjualanDelta`
on every item. -/
theorem stokOf_foldl_penjualan (items : List (PenjualanItem R)) (s : List (StockEntry R))
    (k : String) :
    stokOf (items.foldl
        (fun s it => adjust s it.kode_barang it.nama_barang it.satuan (-it.qty)) s) k =
      stokOf s k - (items.map (fun it => if it.kode_barang = k then it.qty else 0)).sum := by
  induction items generalizing s with
  | nil => simp
  | cons it rest ih =>
    rw [List.foldl_cons, ih, stokOf_adjust, List.map_cons, List.sum_cons]
    by_cases h : it.kode_barang = k
    · simp only [if_pos h]
      ring
    · simp only [if_neg h]
      ring

/-! ### Characterizations of the endpoint validations -/

/-- The purchase line validation passes exactly when every line references an
existing master item. -/
theorem firstMissingPembelianItem_eq_none_iff (db : DB R) (items : List (PembelianItem R)) :
    firstMissingPembelianItem db items = none ↔
      ∀ it ∈ items, hasBarang db it.kode_barang = true := by
  rw [firstMissingPembelianItem, List.findSome?_eq_none_iff]
  constructor
  · intro h it hit
    have := h it hit
    by_cases hb : hasBarang db it.kode_barang
    · exact hb
    · simp [hb] at this
  · intro h it hit
    simp [h it hit]

/-- A sale line passes validation exactly when its item exists and any existing
stock document has at least the requested quantity. -/
theorem validatePenjualanLine_eq_none_iff (db : DB R) (it : PenjualanItem R) :
    validatePenjualanLine db it = none ↔
      hasBarang db it.kode_barang = true ∧
        ∀ st, findStock db.stock it.kode_barang = some st → ¬ st.stok < it.qty := by
  rw [validatePenjualanLine]
  by_cases hb : hasBarang db it.kode_barang
  · rw [if_pos hb]
    cases hst : findStock db.stock it.kode_barang with
    | none => simp [hb]
    | some st =>
      by_cases hlt : st.stok < it.qty
      · simp [hb, hlt]
      · simp only [if_neg hlt, true_iff, hb, true_and]
        intro st2 hst2
        cases hst2
        exact hlt
  · simp [hb]

/-- If a line failed validation but its item exists, the failure was the
insufficient-stock check. -/
theorem validatePenjualanLine_some_of_hasBarang (db : DB R) (it : PenjualanItem R)
    (e : ApiError) (hb : hasBarang db it.kode_barang = true)
    (h : validatePenjualanLine db it = some e) :
    e = .lineInsufficientStock it.kode_barang := by
  rw [validatePenjualanLine, if_pos hb] at h
  cases hst : findStock db.stock it.kode_barang with
  | none =>
    rw [hst] at h
    cases h
  | some st =>
    rw [hst] at h
    by_cases hlt : st.stok < it.qty
    · simp only [hlt, if_true] at h
      cases h
      rfl
    · simp only [hlt, if_false] at h
      cases h

/-- The shape of an accepted purchase: header appended, stock incremented per line. -/
theorem create_pembelian_eq_ok (db : DB R) (p : Pembelian R)
    (hsup : hasSupplier db p.kode_supplier = true)
    (hitems : ∀ it ∈ p.items, hasBarang db it.kode_barang = true) :
    create_pembelian db p =
      .ok { db with
        pembelian := db.pembelian ++ [p]
        stock := p.items.foldl
          (fun s it => adjust s it.kode_barang it.nama_barang it.satuan it.qty) db.stock } := by
  rw [create_pembelian, if_pos hsup,
    (firstMissingPembelianItem_eq_none_iff db p.items).mpr hitems]

/-- The shape of an accepted sale: header appended, stock decremented per line. -/
theorem create_penjualan_eq_ok (db : DB R) (p : Penjualan R)
    (hcus : hasCustomer db p.kode_customer = true)
    (hitems : ∀ it ∈ p.items, validatePenjualanLine db it = none) :
    create_penjualan db p =
      .ok { db with
        penjualan := db.penjualan ++ [p]
        stock := p.items.foldl
          (fun s it => adjust s it.kode_barang it.nama_barang it.satuan (-it.qty)) db.stock } := by
  rw [create_penjualan, if_pos hcus, List.findSome?_eq_none_iff.mpr hitems]

/-! ### The stock ledger tracks the algebraic sum of accepted deltas -/

/-- One accepted transaction moves every item's ledger quantity by exactly its
algebraic delta. -/
theorem stokOf_applyTxn (db db2 : DB R) (t : Txn R) (h : applyTxn db t = .ok db2)
    (k : String) :
    stokOf db2.stock k = stokOf db.stock k + txnDelta t k := by
  cases t with
  | purchase d =>
    rw [applyTxn, create_pembelian] at h
    split at h
    · split at h
      · exact absurd h (by simp)
      · cases h
        simp [txnDelta, pembelianDelta, stokOf_foldl_pembelian]
    · exact absurd h (by simp)
  | stockIn d =>
    rw [applyTxn, create_barang_masuk] at h
    split at h
    · cases h
      simp [txnDelta, stokOf_adjust]
    · exact absurd h (by simp)
  | stockOut d =>
    rw [applyTxn, create_barang_keluar] at h
    split at h
    · split at h
      · split at h
        · exact absurd h (by simp)
        · cases h
          simp [txnDelta, stokOf_adjust]
      · cases h
        simp [txnDelta, stokOf_adjust]
    · exact absurd h (by simp)
  | sale d =>
    rw [applyTxn, create_penjualan] at h
    split at h
    · split at h
      · exact absurd h (by simp)
      · cases h
        simp only [txnDelta, penjualanDelta, stokOf_foldl_penjualan]
        ring
    · exact absurd h (by simp)

/-- A sequence of individually accepted transactions moves every item's ledger
quantity by the sum of the per-transaction deltas. -/
theorem stokOf_applyTxns (ts : List (Txn R)) (db db2 : DB R)
    (h : applyTxns db ts = .ok db2) (k : String) :
    stokOf db2.stock k = stokOf db.stock k + (ts.map (fun t => txnDelta t k)).sum := by
  induction ts generalizing db with
  | nil =>
    rw [applyTxns] at h
    cases h
    simp
  | cons t ts ih =>
    rw [applyTxns] at h
    split at h
    case _ dbmid hmid =>
      rw [List.map_cons, List.sum_cons, ← add_assoc, ← stokOf_applyTxn db dbmid t hmid k]
      exact ih dbmid h
    case _ e hmid => exact absurd h (by simp)

/-! ### Fixtures used by the witnesses -/

/-- Fixture master item. -/
def tepung : Barang ℤ := ⟨"B1", "Tepung", "Kg", 10, "Bahan Baku"⟩

/-- Fixture master item with an unused code. -/
def gula : Barang ℤ := ⟨"B2", "Gula", "Kg", 12, "Bahan Baku"⟩

/-- Fixture supplier. -/
def supplierA : Supplier := ⟨"SUP001", "PT Sumber", none, none⟩

/-- Fixture customer. -/
def customerA : Customer := ⟨"CUS001", "Budi", none, none⟩

/-- Fixture database: one item, one supplier, one customer, no transactions,
empty stock collection. -/
def dbA : DB ℤ := ⟨[tepung], [supplierA], [customerA], [], [], [], [], []⟩

/-- Fixture database with 5 units of item B1 on the stock ledger. -/
def dbStocked : DB ℤ := { dbA with stock := [⟨"B1", "Tepung", "Kg", 5⟩] }

/-! ### Claims -/

/-- C1: For every item, after any finite sequence of transactions
(recordPurchase, recordStockIn, recordStockOut, recordSale) that were each
individually accepted, the stock ledger quantity (stok) for that item equals
the algebraic sum of the accepted deltas: plus qty per Purchase/StockIn line
touching the item, minus qty per StockOut/Sale line touching the item,
starting from no entry (treated as 0). -/
theorem c1_stock_equals_sum_of_accepted_deltas (R : Type) [LinearOrderedCommRing R]
    (ts : List (Txn R)) (db db2 : DB R) (k : String)
    (hstart : findStock db.stock k = none) (h : applyTxns db ts = .ok db2) :
    stokOf db2.stock k = (ts.map (fun t => txnDelta t k)).sum := by
  have h0 : stokOf db.stock k = 0 := by rw [stokOf, hstart]
  have hh := stokOf_applyTxns ts db db2 h k
  rw [h0, zero_add] at hh
  exact hh

/-- Transaction sequence exercising every endpoint once against `dbA`. -/
def txnSeqA : List (Txn ℤ) :=
  [.stockIn ⟨"2024-01-01", "B1", "Tepung", "Kg", 5, none⟩,
   .purchase ⟨"INV-001", "2024-01-02", "SUP001", none, none,
     [⟨"B1", "Tepung", "Kg", 4, 100⟩], 400⟩,
   .stockOut ⟨"2024-01-03", "B1", "Tepung", "Kg", 2, none⟩,
   .sale ⟨"SL-001", "2024-01-04", "CUS001", none, none,
     [⟨"B1", "Tepung", "Kg", 3, 150⟩], 450⟩]

/-- The database reached by running `txnSeqA` against `dbA`. -/
def dbAfterSeqA : DB ℤ :=
  { dbA with
    pembelian := [⟨"INV-001", "2024-01-02", "SUP001", none, none,
      [⟨"B1", "Tepung", "Kg", 4, 100⟩], 400⟩]
    barangmasuk := [⟨"2024-01-01", "B1", "Tepung", "Kg", 5, none⟩]
    barngkeluar := [⟨"2024-01-03", "B1", "Tepung", "Kg", 2, none⟩]
    penjualan := [⟨"SL-001", "2024-01-04", "CUS001", none, none,
      [⟨"B1", "Tepung", "Kg", 3, 150⟩], 450⟩]
    stock := [⟨"B1", "Tepung", "Kg", 4⟩] }

/-- Witness for C1: the net stock of B1 after stock-in 5, purchase 4,
stock-out 2, sale 3 is the algebraic sum of the four deltas. -/
theorem c1_stock_equals_sum_of_accepted_deltas_witness :
    stokOf dbAfterSeqA.stock "B1" = (txnSeqA.map (fun t => txnDelta t "B1")).sum :=
  c1_stock_equals_sum_of_accepted_deltas ℤ txnSeqA dbA dbAfterSeqA "B1" (by decide)
    (by decide)

/-- C2: For every StockOut request and every Sale line whose item has an
existing stock-ledger entry, if the requested quantity exceeds the current
ledger quantity then the operation is rejected — the request returns an error,
so no transaction document and no ledger mutation is produced — and the error
is the InsufficientStock rejection whenever the remaining validations (item
master present; for a sale also customer present and every line's item present)
pass. -/
theorem c2_insufficient_stock_rejected (R : Type) [LinearOrderedCommRing R] (db : DB R) :
    (∀ (dk : BarangKeluar R) (st : StockEntry R),
      findStock db.stock dk.kode_barang = some st → st.stok < dk.qty →
      (∃ e, create_barang_keluar db dk = .error e) ∧
      (hasBarang db dk.kode_barang = true →
        create_barang_keluar db dk = .error .insufficientStock)) ∧
    (∀ (p : Penjualan R) (it : PenjualanItem R) (st : StockEntry R), it ∈ p.items →
      findStock db.stock it.kode_barang = some st → st.stok < it.qty →
      (∃ e, create_penjualan db p = .error e) ∧
      (hasCustomer db p.kode_customer = true →
        (∀ jt ∈ p.items, hasBarang db jt.kode_barang = true) →
        ∃ k, create_penjualan db p = .error (.lineInsufficientStock k))) := by
  constructor
  · intro dk st hst hlt
    by_cases hb : hasBarang db dk.kode_barang
    · have hrej : create_barang_keluar db dk = .error .insufficientStock := by
        rw [create_barang_keluar, if_pos hb, hst]
        simp only [hlt, if_true]
      exact ⟨⟨_, hrej⟩, fun _ => hrej⟩
    · refine ⟨⟨.itemNotFound, ?_⟩, fun hb2 => absurd hb2 hb⟩
      rw [create_barang_keluar, if_neg hb]
  · intro p it st hit hst hlt
    have hvit : validatePenjualanLine db it ≠ none := by
      intro hnone
      have := (validatePenjualanLine_eq_none_iff db it).mp hnone
      exact this.2 st hst hlt
    have hfs : p.items.findSome? (validatePenjualanLine db) ≠ none := by
      intro hnone
      exact hvit (List.findSome?_eq_none_iff.mp hnone it hit)
    by_cases hcus : hasCustomer db p.kode_customer
    · cases hres : p.items.findSome? (validatePenjualanLine db) with
      | none => exact absurd hres hfs
      | some e =>
        have hrej : create_penjualan db p = .error e := by
          rw [create_penjualan, if_pos hcus, hres]
        refine ⟨⟨e, hrej⟩, fun _ hall => ?_⟩
        obtain ⟨jt, hjt, hje⟩ := List.exists_of_findSome?_eq_some hres
        have := validatePenjualanLine_some_of_hasBarang db jt e (hall jt hjt) hje
        exact ⟨jt.kode_barang, this ▸ hrej⟩
    · refine ⟨⟨.customerNotFound, ?_⟩, fun hc2 => absurd hc2 hcus⟩
      rw [create_penjualan, if_neg hcus]

/-- Witness for C2: drawing 9 from a ledger holding 5 is rejected with the
insufficient-stock error, for a stock-out and for a sale line alike. -/
theorem c2_insufficient_stock_rejected_witness :
    create_barang_keluar dbStocked ⟨"2024-01-05", "B1", "Tepung", "Kg", 9, none⟩ =
      .error .insufficientStock ∧
    ∃ k, create_penjualan dbStocked
        ⟨"SL-002", "2024-01-05", "CUS001", none, none,
          [⟨"B1", "Tepung", "Kg", 9, 150⟩], 1350⟩ =
      .error (.lineInsufficientStock k) :=
  ⟨((c2_insufficient_stock_rejected ℤ dbStocked).1
      ⟨"2024-01-05", "B1", "Tepung", "Kg", 9, none⟩ ⟨"B1", "Tepung", "Kg", 5⟩
      (by decide) (by decide)).2 (by decide),
   ((c2_insufficient_stock_rejected ℤ dbStocked).2
      ⟨"SL-002", "2024-01-05", "CUS001", none, none,
        [⟨"B1", "Tepung", "Kg", 9, 150⟩], 1350⟩
      ⟨"B1", "Tepung", "Kg", 9, 150⟩ ⟨"B1", "Tepung", "Kg", 5⟩
      (by decide) (by decide) (by decide)).2 (by decide) (by decide)⟩

/-- C3: For every multi-line Purchase or Sale, if validation fails on any line
(e.g. line 2 references an unknown item code), the whole transaction is
rejected before any persistence: the endpoint returns an error instead of a
new database state, so no transaction record is stored and no line's ledger
adjustment is applied, including lines that validated successfully. -/
theorem c3_multiline_validation_is_atomic (R : Type) [LinearOrderedCommRing R] (db : DB R) :
    (∀ (p : Pembelian R), ∀ it ∈ p.items, hasBarang db it.kode_barang = false →
      ∃ e, create_pembelian db p = .error e) ∧
    (∀ (s : Penjualan R), ∀ it ∈ s.items, hasBarang db it.kode_barang = false →
      ∃ e, create_penjualan db s = .error e) := by
  constructor
  · intro p it hit hmiss
    by_cases hsup : hasSupplier db p.kode_supplier
    · have hfm : firstMissingPembelianItem db p.items ≠ none := by
        intro hnone
        have := (firstMissingPembelianItem_eq_none_iff db p.items).mp hnone it hit
        rw [hmiss] at this
        cases this
      cases hres : firstMissingPembelianItem db p.items with
      | none => exact absurd hres hfm
      | some kode =>
        refine ⟨.lineItemNotFound kode, ?_⟩
        rw [create_pembelian, if_pos hsup, hres]
    · refine ⟨.supplierNotFound, ?_⟩
      rw [create_pembelian, if_neg hsup]
  · intro s it hit hmiss
    by_cases hcus : hasCustomer db s.kode_customer
    · have hvit : validatePenjualanLine db it ≠ none := by
        intro hnone
        have := ((validatePenjualanLine_eq_none_iff db it).mp hnone).1
        rw [hmiss] at this
        cases this
      have hfs : s.items.findSome? (validatePenjualanLine db) ≠ none := by
        intro hnone
        exact hvit (List.findSome?_eq_none_iff.mp hnone it hit)
      cases hres : s.items.findSome? (validatePenjualanLine db) with
      | none => exact absurd hres hfs
      | some e =>
        refine ⟨e, ?_⟩
        rw [create_penjualan, if_pos hcus, hres]
    · refine ⟨.customerNotFound, ?_⟩
      rw [create_penjualan, if_neg hcus]

/-- A two-line sale whose second line references the unknown item code B9. -/
def saleLine2Unknown : Penjualan ℤ :=
  ⟨"SL-003", "2024-01-06", "CUS001", none, none,
    [⟨"B1", "Tepung", "Kg", 1, 150⟩, ⟨"B9", "Misteri", "Kg", 1, 150⟩], 300⟩

/-- Witness for C3: a sale whose line 1 validates but whose line 2 references an
unknown item is rejected as a whole. -/
theorem c3_multiline_validation_is_atomic_witness :
    ∃ e, create_penjualan dbStocked saleLine2Unknown = .error e :=
  (c3_multiline_validation_is_atomic ℤ dbStocked).2 saleLine2Unknown
    ⟨"B9", "Misteri", "Kg", 1, 150⟩ (by decide) (by decide)

/-- C4: For every StockOut (and Sale line) whose item code has no existing
stock-ledger entry, the sufficiency check is skipped entirely: the operation is
accepted for any requested quantity (given the item master record exists, and
for a sale the customer and every line's item master record) and a ledger entry
is created whose quantity is minus the requested quantity. -/
theorem c4_missing_ledger_entry_skips_check (R : Type) [LinearOrderedCommRing R] (db : DB R) :
    (∀ (dk : BarangKeluar R), hasBarang db dk.kode_barang = true →
      findStock db.stock dk.kode_barang = none →
      ∃ db2, create_barang_keluar db dk = .ok db2 ∧
        stokOf db2.stock dk.kode_barang = -dk.qty) ∧
    (∀ (s : Penjualan R), hasCustomer db s.kode_customer = true →
      (∀ it ∈ s.items, hasBarang db it.kode_barang = true ∧
        findStock db.stock it.kode_barang = none) →
      ∃ db2, create_penjualan db s = .ok db2) := by
  constructor
  · intro dk hb hnone
    refine ⟨{ db with
        barngkeluar := db.barngkeluar ++ [dk]
        stock := adjust db.stock dk.kode_barang dk.nama_barang dk.satuan (-dk.qty) }, ?_, ?_⟩
    · rw [create_barang_keluar, if_pos hb, hnone]
    · show stokOf (adjust db.stock dk.kode_barang dk.nama_barang dk.satuan (-dk.qty))
        dk.kode_barang = -dk.qty
      have h0 : stokOf db.stock dk.kode_barang = 0 := by rw [stokOf, hnone]
      rw [stokOf_adjust, h0, if_pos rfl, zero_add]
  · intro s hcus hlines
    refine ⟨_, create_penjualan_eq_ok db s hcus ?_⟩
    intro it hit
    rw [validatePenjualanLine, if_pos (hlines it hit).1, (hlines it hit).2]

/-- A stock-out of 100 units of the never-stocked item B1. -/
def keluarNeverStocked : BarangKeluar ℤ := ⟨"2024-01-07", "B1", "Tepung", "Kg", 100, none⟩

/-- Witness for C4: against a database whose stock collection is empty, a
stock-out of 100 units of B1 is accepted and leaves the ledger at -100. -/
theorem c4_missing_ledger_entry_skips_check_witness :
    ∃ db2, create_barang_keluar dbA keluarNeverStocked = .ok db2 ∧
      stokOf db2.stock keluarNeverStocked.kode_barang = -keluarNeverStocked.qty :=
  (c4_missing_ledger_entry_skips_check ℤ dbA).1 keluarNeverStocked (by decide) (by decide)

/-- A sale with two lines of the same item code B1, 3 units each: each line is
at most the 5 units on the ledger of `dbStocked`, their total is not. -/
def saleDoubleLine : Penjualan ℤ :=
  ⟨"SL-004", "2024-01-08", "CUS001", none, none,
    [⟨"B1", "Tepung", "Kg", 3, 150⟩, ⟨"B1", "Tepung", "Kg", 3, 150⟩], 900⟩

/-- The database reached by the accepted double-line sale: B1 went negative. -/
def dbAfterDoubleLine : DB ℤ :=
  { dbStocked with
    penjualan := [saleDoubleLine]
    stock := [⟨"B1", "Tepung", "Kg", -1⟩] }

/-- C5: There exists a single Sale whose line items repeat the same item code,
where each line's quantity individually is at most the current ledger quantity
but the lines' total exceeds it, that is accepted and leaves the item's ledger
quantity negative: the per-line sufficiency check compares each line against
the pre-transaction ledger value, never against the running total of earlier
lines in the same request. -/
theorem c5_repeated_line_bypasses_sufficiency :
    (∀ it ∈ saleDoubleLine.items, it.kode_barang = "B1" ∧
      it.qty ≤ stokOf dbStocked.stock "B1") ∧
    stokOf dbStocked.stock "B1" < penjualanDelta saleDoubleLine "B1" ∧
    create_penjualan dbStocked saleDoubleLine = .ok dbAfterDoubleLine ∧
    stokOf dbAfterDoubleLine.stock "B1" < 0 := by decide

/-- C7: For every master-data create operation (Item, Supplier, Customer)
performed by an admin, if a record with the same code already exists in that
collection, the operation fails with a Conflict error — returning an error, so
the existing record is left unchanged; otherwise the record is persisted
(appended to the collection) and success is returned. -/
theorem c7_duplicate_code_conflict (R : Type) [LinearOrderedCommRing R] (db : DB R)
    (b : Barang R) (s : Supplier) (c : Customer) :
    ((db.barang.any (fun x => x.kode_barang == b.kode_barang)) = true →
      create_barang db "admin" b = .error .conflict) ∧
    ((db.barang.any (fun x => x.kode_barang == b.kode_barang)) = false →
      create_barang db "admin" b = .ok { db with barang := db.barang ++ [b] }) ∧
    ((db.supplier.any (fun x => x.kode_supplier == s.kode_supplier)) = true →
      create_supplier db "admin" s = .error .conflict) ∧
    ((db.supplier.any (fun x => x.kode_supplier == s.kode_supplier)) = false →
      create_supplier db "admin" s = .ok { db with supplier := db.supplier ++ [s] }) ∧
    ((db.customer.any (fun x => x.kode_customer == c.kode_customer)) = true →
      create_customer db "admin" c = .error .conflict) ∧
    ((db.customer.any (fun x => x.kode_customer == c.kode_customer)) = false →
      create_customer db "admin" c = .ok { db with customer := db.customer ++ [c] }) := by
  refine ⟨fun h => ?_, fun h => ?_, fun h => ?_, fun h => ?_, fun h => ?_, fun h => ?_⟩ <;>
    simp [create_barang, create_supplier, create_customer, h]

/-- Witness for C7: re-creating item code B1 in `dbA` is a conflict; creating
the fresh code B2 persists it. -/
theorem c7_duplicate_code_conflict_witness :
    create_barang dbA "admin" tepung = .error .conflict ∧
    create_barang dbA "admin" gula = .ok { dbA with barang := dbA.barang ++ [gula] } :=
  ⟨(c7_duplicate_code_conflict ℤ dbA tepung supplierA customerA).1 (by decide),
   (c7_duplicate_code_conflict ℤ dbA gula supplierA customerA).2.1 (by decide)⟩

/-- C8: For every ledger adjustment adjust(itemCode, itemName, unit, delta):
if no ledger entry exists for itemCode one is created with quantity delta and
the caller-provided itemName/unit snapshots; if an entry already exists, only
the quantity field is incremented by delta and the stored itemName/unit fields
are left unchanged, regardless of the name/unit values carried by the adjusting
transaction. -/
theorem c8_adjust_creates_or_increments_only_qty (R : Type) [LinearOrderedCommRing R]
    (s : List (StockEntry R)) (kode nama satuan : String) (delta : R) :
    (findStock s kode = none →
      adjust s kode nama satuan delta = s ++ [⟨kode, nama, satuan, delta⟩]) ∧
    (∀ st, findStock s kode = some st →
      findStock (adjust s kode nama satuan delta) kode =
        some ⟨st.kode_barang, st.nama_barang, st.satuan, st.stok + delta⟩) :=
  ⟨fun h => adjust_of_findStock_none s kode nama satuan delta h,
   fun st h => findStock_adjust_of_some s kode nama satuan delta st h⟩

/-- Witness for C8: adjusting absent B1 creates the entry with the caller's
snapshots; adjusting existing B1 under a different name and unit only moves
`stok` from 5 to 7 and keeps the stored snapshots. -/
theorem c8_adjust_creates_or_increments_only_qty_witness :
    adjust ([] : List (StockEntry ℤ)) "B1" "Tepung" "Kg" 5 = [⟨"B1", "Tepung", "Kg", 5⟩] ∧
    findStock (adjust [(⟨"B1", "Tepung", "Kg", 5⟩ : StockEntry ℤ)]
        "B1" "Nama Lain" "Gram" 2) "B1" =
      some ⟨"B1", "Tepung", "Kg", 7⟩ :=
  ⟨(c8_adjust_creates_or_increments_only_qty ℤ [] "B1" "Tepung" "Kg" 5).1 (by decide),
   (c8_adjust_creates_or_increments_only_qty ℤ [⟨"B1", "Tepung", "Kg", 5⟩]
      "B1" "Nama Lain" "Gram" 2).2 ⟨"B1", "Tepung", "Kg", 5⟩ (by decide)⟩

/-- C9: No transaction endpoint requires quantities to be positive: a StockIn
with any qty (including zero and negative) passing the master-data check is
accepted and adds qty to the ledger; a Purchase with any line qtys passing the
master-data checks is accepted and adds every (possibly negative) line delta,
decreasing stock on items with negative net qty; a StockOut with negative qty
always passes the sufficiency check against a non-negative ledger quantity and
increases stock. -/
theorem c9_no_positivity_validation (R : Type) [LinearOrderedCommRing R] (db : DB R) :
    (∀ dm : BarangMasuk R, hasBarang db dm.kode_barang = true →
      ∃ db2, create_barang_masuk db dm = .ok db2 ∧
        stokOf db2.stock dm.kode_barang = stokOf db.stock dm.kode_barang + dm.qty) ∧
    (∀ p : Pembelian R, hasSupplier db p.kode_supplier = true →
      (∀ it ∈ p.items, hasBarang db it.kode_barang = true) →
      ∃ db2, create_pembelian db p = .ok db2 ∧
        (∀ k, stokOf db2.stock k = stokOf db.stock k + pembelianDelta p k) ∧
        (∀ k, pembelianDelta p k < 0 → stokOf db2.stock k < stokOf db.stock k)) ∧
    (∀ dk : BarangKeluar R, hasBarang db dk.kode_barang = true → dk.qty < 0 →
      (∀ st, findStock db.stock dk.kode_barang = some st → 0 ≤ st.stok) →
      ∃ db2, create_barang_keluar db dk = .ok db2 ∧
        stokOf db.stock dk.kode_barang < stokOf db2.stock dk.kode_barang) := by
  refine ⟨?_, ?_, ?_⟩
  · intro dm hb
    refine ⟨{ db with
        barangmasuk := db.barangmasuk ++ [dm]
        stock := adjust db.stock dm.kode_barang dm.nama_barang dm.satuan dm.qty }, ?_, ?_⟩
    · rw [create_barang_masuk, if_pos hb]
    · show stokOf (adjust db.stock dm.kode_barang dm.nama_barang dm.satuan dm.qty)
        dm.kode_barang = stokOf db.stock dm.kode_barang + dm.qty
      rw [stokOf_adjust, if_pos rfl]
  · intro p hsup hitems
    have heq : ∀ k, stokOf (p.items.foldl
        (fun s it => adjust s it.kode_barang it.nama_barang it.satuan it.qty) db.stock) k =
        stokOf db.stock k + pembelianDelta p k :=
      fun k => stokOf_foldl_pembelian p.items db.stock k
    refine ⟨_, create_pembelian_eq_ok db p hsup hitems, fun k => heq k, fun k hneg => ?_⟩
    have := heq k
    show stokOf (p.items.foldl
        (fun s it => adjust s it.kode_barang it.nama_barang it.satuan it.qty) db.stock) k <
      stokOf db.stock k
    rw [this]
    linarith
  · intro dk hb hneg hnn
    have hok : create_barang_keluar db dk = .ok { db with
        barngkeluar := db.barngkeluar ++ [dk]
        stock := adjust db.stock dk.kode_barang dk.nama_barang dk.satuan (-dk.qty) } := by
      rw [create_barang_keluar, if_pos hb]
      cases hst : findStock db.stock dk.kode_barang with
      | none => rfl
      | some st =>
        have hnlt : ¬ st.stok < dk.qty := not_lt.mpr (hneg.le.trans (hnn st hst))
        simp only [hnlt, if_false]
    refine ⟨_, hok, ?_⟩
    show stokOf db.stock dk.kode_barang <
      stokOf (adjust db.stock dk.kode_barang dk.nama_barang dk.satuan (-dk.qty)) dk.kode_barang
    rw [stokOf_adjust, if_pos rfl]
    linarith

/-- A stock-in of minus 5 units: negative quantities pass schema validation. -/
def masukNegative : BarangMasuk ℤ := ⟨"2024-01-10", "B1", "Tepung", "Kg", -5, none⟩

/-- A stock-out of minus 2 units. -/
def keluarNegative : BarangKeluar ℤ := ⟨"2024-01-11", "B1", "Tepung", "Kg", -2, none⟩

/-- Witness for C9: against `dbA` (no ledger entry for B1), a stock-in of -5 is
accepted and adds -5 to the ledger, and a stock-out of -2 is accepted and
strictly increases the ledger. -/
theorem c9_no_positivity_validation_witness :
    (∃ db2, create_barang_masuk dbA masukNegative = .ok db2 ∧
      stokOf db2.stock masukNegative.kode_barang =
        stokOf dbA.stock masukNegative.kode_barang + masukNegative.qty) ∧
    (∃ db2, create_barang_keluar dbA keluarNegative = .ok db2 ∧
      stokOf dbA.stock keluarNegative.kode_barang <
        stokOf db2.stock keluarNegative.kode_barang) :=
  ⟨(c9_no_positivity_validation ℤ dbA).1 masukNegative (by decide),
   (c9_no_positivity_validation ℤ dbA).2.2 keluarNegative (by decide) (by decide)
     (fun st h => Option.noConfusion h)⟩

/-- C10: For every accepted Purchase and Sale, the grand_total field is
persisted exactly as supplied by the caller: acceptance never depends on the
grand_total value (any value passes, with no comparison against the line
items), and the stored record is the request verbatim. -/
theorem c10_grand_total_stored_unvalidated (R : Type) [LinearOrderedCommRing R] (db : DB R) :
    (∀ (p : Pembelian R) (g : R), hasSupplier db p.kode_supplier = true →
      (∀ it ∈ p.items, hasBarang db it.kode_barang = true) →
      ∃ db2, create_pembelian db { p with grand_total := g } = .ok db2 ∧
        db2.pembelian = db.pembelian ++ [{ p with grand_total := g }]) ∧
    (∀ (s : Penjualan R) (g : R), hasCustomer db s.kode_customer = true →
      (∀ it ∈ s.items, validatePenjualanLine db it = none) →
      ∃ db2, create_penjualan db { s with grand_total := g } = .ok db2 ∧
        db2.penjualan = db.penjualan ++ [{ s with grand_total := g }]) := by
  constructor
  · intro p g hsup hitems
    exact ⟨_, create_pembelian_eq_ok db { p with grand_total := g } hsup hitems, rfl⟩
  · intro s g hcus hitems
    exact ⟨_, create_penjualan_eq_ok db { s with grand_total := g } hcus hitems, rfl⟩

/-- A one-line sale whose lines total 2 * 10 = 20. -/
def saleBase : Penjualan ℤ :=
  ⟨"SL-005", "2024-01-09", "CUS001", none, none, [⟨"B1", "Tepung", "Kg", 2, 10⟩], 20⟩

/-- Witness for C10: the same sale with grand_total overridden to 999 — which
disagrees with its line total — is accepted and stored verbatim. -/
theorem c10_grand_total_stored_unvalidated_witness :
    (999 : ℤ) ≠ (saleBase.items.map (fun it => it.qty * it.harga_jual)).sum ∧
    ∃ db2, create_penjualan dbStocked { saleBase with grand_total := 999 } = .ok db2 ∧
      db2.penjualan = dbStocked.penjualan ++ [{ saleBase with grand_total := 999 }] :=
  ⟨by decide,
   (c10_grand_total_stored_unvalidated ℤ dbStocked).2 saleBase 999 (by decide) (by decide)⟩

/-! ### Lemmas for the code generator -/

/-- The running maximum computed by `lexLast` is an element of the scanned list
that no element of the list lexicographically exceeds. -/
theorem foldlMax_spec (vs : List String) (a : String) :
    (vs.foldl (fun m u => if m.data < u.data then u else m) a) ∈ a :: vs ∧
    ∀ u ∈ a :: vs,
      ¬ (vs.foldl (fun m u => if m.data < u.data then u else m) a).data < u.data := by
  induction vs generalizing a with
  | nil =>
    refine ⟨List.mem_singleton_self _, ?_⟩
    intro u hu
    rw [List.mem_singleton] at hu
    subst hu
    exact lt_irrefl _
  | cons b vs ih =>
    rw [List.foldl_cons]
    by_cases hab : a.data < b.data
    · rw [if_pos hab]
      obtain ⟨rmem, rmax⟩ := ih b
      refine ⟨?_, ?_⟩
      · rcases List.mem_cons.mp rmem with h | h
        · rw [h]
          exact List.mem_cons_of_mem a (List.mem_cons_self b vs)
        · exact List.mem_cons_of_mem a (List.mem_cons_of_mem b h)
      · intro u hu
        rcases List.mem_cons.mp hu with h | h
        · subst h
          intro hra
          exact (rmax b (List.mem_cons_self b vs)) (lt_trans hra hab)
        · exact rmax u h
    · rw [if_neg hab]
      obtain ⟨rmem, rmax⟩ := ih a
      refine ⟨?_, ?_⟩
      · rcases List.mem_cons.mp rmem with h | h
        · rw [h]
          exact List.mem_cons_self a (b :: vs)
        · exact List.mem_cons_of_mem a (List.mem_cons_of_mem b h)
      · intro u hu
        rcases List.mem_cons.mp hu with h | h
        · subst h
          exact rmax u (List.mem_cons_self u vs)
        · rcases List.mem_cons.mp h with h2 | h2
          · subst h2
            intro hrb
            exact (rmax a (List.mem_cons_self a vs)) (lt_of_lt_of_le hrb (not_lt.mp hab))
          · exact rmax u (List.mem_cons_of_mem a h2)

/-- `lexLast` returns exactly the element that no list element lexicographically
exceeds. -/
theorem lexLast_eq_some_of_max (l : List String) (v : String) (hmem : v ∈ l)
    (hmax : ∀ u ∈ l, ¬ v.data < u.data) : lexLast l = some v := by
  cases l with
  | nil => cases hmem
  | cons a vs =>
    rw [lexLast]
    obtain ⟨rmem, rmax⟩ := foldlMax_spec vs a
    have h1 := hmax _ rmem
    have h2 := rmax v hmem
    exact congrArg some (String.ext (le_antisymm (not_lt.mp h1) (not_lt.mp h2)))

/-- The Horner-style left fold used by `trailingNumber` parses a digit string:
it computes the base-10 value of the digits (little-endian via `Nat.ofDigits`). -/
theorem foldl_parse_eq_ofDigits (ds : List Char) (a : ℕ) :
    ds.foldl (fun n c => n * 10 + (c.toNat - 48)) a =
      a * 10 ^ ds.length + Nat.ofDigits 10 (ds.reverse.map (fun c => c.toNat - 48)) := by
  induction ds generalizing a with
  | nil => simp [Nat.ofDigits]
  | cons c ds ih =>
    rw [List.foldl_cons, ih, List.reverse_cons, List.map_append, Nat.ofDigits_append]
    simp only [List.map_cons, List.map_nil, Nat.ofDigits_singleton, List.length_map,
      List.length_reverse, List.length_cons]
    ring

/-- If a string splits as `w ++ ds` with `ds` a nonempty digit run and `w` not
ending in a digit, `trailingNumber` parses exactly `ds`. -/
theorem trailingNumber_eq_some (s : String) (w ds : List Char) (h : s.data = w ++ ds)
    (hne : ds ≠ []) (hdig : ∀ c ∈ ds, c.isDigit = true)
    (hw : w = [] ∨ ∃ w0 c, w = w0 ++ [c] ∧ c.isDigit = false) :
    trailingNumber s = some (Nat.ofDigits 10 (ds.reverse.map (fun c => c.toNat - 48))) := by
  have htw : s.data.reverse.takeWhile Char.isDigit = ds.reverse := by
    rw [h, List.reverse_append,
      List.takeWhile_append_of_pos (fun c hc => hdig c (List.mem_reverse.mp hc))]
    rcases hw with hw | ⟨w0, c, hw, hc⟩
    · rw [hw]
      simp
    · rw [hw, List.reverse_append]
      simp only [List.reverse_cons, List.reverse_nil, List.nil_append, List.singleton_append]
      rw [List.takeWhile_cons_of_neg (by simp [hc])]
      simp
  rw [trailingNumber, htw]
  rw [if_neg (by simp [hne])]
  rw [List.reverse_reverse, foldl_parse_eq_ofDigits]
  simp

/-- If a string is empty or does not end in a digit, `trailingNumber` is `none`. -/
theorem trailingNumber_eq_none (s : String)
    (hw : s.data = [] ∨ ∃ w0 c, s.data = w0 ++ [c] ∧ c.isDigit = false) :
    trailingNumber s = none := by
  have htw : s.data.reverse.takeWhile Char.isDigit = [] := by
    rcases hw with h | ⟨w0, c, h, hc⟩
    · rw [h]
      rfl
    · rw [h, List.reverse_append]
      simp only [List.reverse_cons, List.reverse_nil, List.nil_append, List.singleton_append]
      rw [List.takeWhile_cons_of_neg (by simp [hc])]
  rw [trailingNumber, htw]
  rfl

/-- C6: nextCode(prefix, collection, field, pad=3) returns prefix concatenated
with n+1 zero-padded to pad digits, where n is the trailing-digit number
extracted from the lexicographically last stored field value beginning with
prefix; if no record matches the prefix, or the matched value has no trailing
digits, it returns prefix followed by 1 zero-padded (e.g. existing KODE-001 and
KODE-002 yield KODE-003, and no existing codes yield KODE-001). -/
theorem c6_next_code_characterization :
    next_code "KODE-" 3 ["KODE-001", "KODE-002"] = "KODE-003" ∧
    next_code "KODE-" 3 [] = "KODE-001" ∧
    (∀ (pre : String) (pad : Nat) (values : List String),
      (∀ v ∈ values, pre.data.isPrefixOf v.data = false) →
      next_code pre pad values = pre ++ zfill (Nat.repr 1) pad) ∧
    (∀ (pre : String) (pad : Nat) (values : List String) (v : String),
      v ∈ values → pre.data.isPrefixOf v.data = true →
      (∀ u ∈ values, pre.data.isPrefixOf u.data = true → ¬ v.data < u.data) →
      (∀ w ds : List Char, v.data = w ++ ds → ds ≠ [] →
        (∀ c ∈ ds, c.isDigit = true) →
        (w = [] ∨ ∃ w0 c, w = w0 ++ [c] ∧ c.isDigit = false) →
        next_code pre pad values =
          pre ++ zfill
            (Nat.repr (Nat.ofDigits 10 (ds.reverse.map (fun c => c.toNat - 48)) + 1)) pad) ∧
      ((v.data = [] ∨ ∃ w0 c, v.data = w0 ++ [c] ∧ c.isDigit = false) →
        next_code pre pad values = pre ++ zfill (Nat.repr 1) pad)) := by
  refine ⟨by decide, by decide, ?_, ?_⟩
  · intro pre pad values hnone
    have hfil : values.filter (fun v => pre.data.isPrefixOf v.data) = [] :=
      List.filter_eq_nil_iff.mpr (fun v hv => by simp [hnone v hv])
    rw [next_code, hfil]
    rfl
  · intro pre pad values v hvmem hvpre hmax
    have hfilmem : v ∈ values.filter (fun v => pre.data.isPrefixOf v.data) :=
      List.mem_filter.mpr ⟨hvmem, hvpre⟩
    have hmax2 : ∀ u ∈ values.filter (fun v => pre.data.isPrefixOf v.data),
        ¬ v.data < u.data :=
      fun u hu => hmax u (List.mem_filter.mp hu).1 (List.mem_filter.mp hu).2
    have hlex := lexLast_eq_some_of_max _ v hfilmem hmax2
    constructor
    · intro w ds hsplit hne hdig hw
      have htn := trailingNumber_eq_some v w ds hsplit hne hdig hw
      simp only [next_code, hlex, htn]
    · intro hnd
      have htn := trailingNumber_eq_none v hnd
      simp only [next_code, hlex, htn]

/-- Witness for C6: with stored invoice numbers INV-009 and INV-010, the next
code is built from the trailing digits of the lexicographic maximum INV-010. -/
theorem c6_next_code_characterization_witness :
    next_code "INV-" 3 ["INV-009", "INV-010"] =
      "INV-" ++ zfill
        (Nat.repr (Nat.ofDigits 10 ((['0', '1', '0'] : List Char).reverse.map
          (fun c => c.toNat - 48)) + 1)) 3 ∧
    "INV-" ++ zfill
        (Nat.repr (Nat.ofDigits 10 ((['0', '1', '0'] : List Char).reverse.map
          (fun c => c.toNat - 48)) + 1)) 3 = "INV-011" :=
  ⟨((c6_next_code_characterization.2.2.2 "INV-" 3 ["INV-009", "INV-010"] "INV-010"
      (by decide) (by decide) (by decide)).1
    (['I', 'N', 'V', '-'] : List Char) ['0', '1', '0'] (by decide) (by decide) (by decide)
    (Or.inr ⟨['I', 'N', 'V'], Char.ofNat 45, by decide, by decide⟩)), by decide⟩

end Bakery
